import Mathlib

/-!
Shallow embedding of `src/secret_message/secret_message.py` and proofs about
the claims of its specification.

The program fetches an HTML document, extracts `(x, character, y)` triples
from the rows of its first table, arranges the characters into a grid and
prints the grid bottom row last.  Printed output is modelled as a
`List String` of lines; a Python exception escaping a function is modelled
by `Option`/`none`; Python's negative list indexing (wrap from the right,
`IndexError` outside `-n ≤ i < n`) is modelled by `pyIdx`.
-/

set_option linter.unusedVariables false

namespace SecretMessage

/-- A placed glyph: one of the `(x, y, character)` tuples appended by
`parse_table_characters` (secret_message.py line 50). Coordinates are Python
integers, the character a (possibly multi-glyph) Python string. -/
structure CharacterEntry where
  x : Int
  y : Int
  char : String
  deriving DecidableEq, Repr

/-- Model of Python `str.strip()`: drop leading and trailing whitespace. -/
def pyStrip (s : String) : String :=
  ⟨((s.data.dropWhile Char.isWhitespace).reverse.dropWhile Char.isWhitespace).reverse⟩

/-- Value of a nonempty list of decimal digit characters; `none` when the
list is empty or contains a non-digit. -/
def digitsVal (l : List Char) : Option Nat :=
  if l ≠ [] ∧ l.all Char.isDigit then
    some (l.foldl (fun a c => a * 10 + (c.toNat - 48)) 0)
  else none

/-- Model of Python `int(s)` on a string: strip surrounding whitespace, then
an optional sign followed by decimal digits; `none` models `ValueError`.
(Python's underscore digit separators and non-ASCII digits are not
modelled.) -/
def pyInt (s : String) : Option Int :=
  match (pyStrip s).data with
  | [] => none
  | '-' :: rest => (digitsVal rest).map (fun n => -(n : Int))
  | '+' :: rest => (digitsVal rest).map (fun n => (n : Int))
  | l => (digitsVal l).map (fun n => (n : Int))

/-- Abstraction of a fetched HTML document.  BeautifulSoup's HTML parsing is
not modelled: a document is its body text together with the result of
`soup.find('table')` — `none` when the markup contains no table element,
otherwise the first table's rows (`find_all('tr')`), each row given as the
list of its cells' (`find_all(['td', 'th'])`) text contents
(`get_text()`). -/
structure HtmlDoc where
  text : String
  table : Option (List (List String))
  deriving DecidableEq

/-- Outcome of `requests.get(url)` followed by `raise_for_status()`: either
the (abstracted) response document, or a `RequestException` carrying its
description. -/
inductive NetResult where
  | success (doc : HtmlDoc)
  | failure (err : String)
  deriving DecidableEq

/-- Embedding of `fetch_and_parse_doc` (secret_message.py lines 10-23):
returns the fetched document (or `none` on failure, the Python `None`
sentinel) together with the lines it prints. -/
def fetch_and_parse_doc (r : NetResult) : Option HtmlDoc × List String :=
  match r with
  | NetResult.success doc => (some doc, [])
  | NetResult.failure err => (none, ["Error fetching the document: " ++ err])

/-- One iteration of the row loop of `parse_table_characters`
(secret_message.py lines 42-52): the entry the row contributes, `none` when
the row is skipped (fewer than 3 cells, `ValueError` from `int`, or blank
character cell). -/
def rowEntry (cells : List String) : Option CharacterEntry :=
  if 3 ≤ cells.length then
    match pyInt (pyStrip (cells.getD 0 "")) with
    | none => none
    | some x =>
      match pyInt (pyStrip (cells.getD 2 "")) with
      | none => none
      | some y =>
        if pyStrip (cells.getD 1 "") ≠ "" then
          some ⟨x, y, pyStrip (cells.getD 1 "")⟩
        else none
  else none

/-- Embedding of `parse_table_characters` (secret_message.py lines 26-53):
returns the lines it prints together with the extracted entries.  The first
row (`rows[1:]`) is skipped; the remaining rows contribute entries in
encounter order. -/
def parse_table_characters (doc : HtmlDoc) : List String × List CharacterEntry :=
  match doc.table with
  | none => (["No table found in the document."], [])
  | some rows => ([], (rows.drop 1).filterMap rowEntry)

/-- Python list indexing `l[i]` on a list of length `n`: a non-negative
index is used as is when `i < n`, a negative index counts from the right
(`n + i`), anything else raises `IndexError` (modelled by `none`). -/
def pyIdx (i : Int) (n : Nat) : Option Nat :=
  if 0 ≤ i then
    if i < (n : Int) then some i.toNat else none
  else
    if (n : Int) + i < 0 then none else some ((n : Int) + i).toNat

/-- The assignment `grid[y][x] = char` (secret_message.py line 73) with
Python indexing on both levels; `none` models an escaping `IndexError`. -/
def setCell (g : List (List String)) (y x : Int) (c : String) :
    Option (List (List String)) :=
  match pyIdx y g.length with
  | none => none
  | some r =>
    match pyIdx x (g.getD r []).length with
    | none => none
    | some cc => some (g.set r ((g.getD r []).set cc c))

/-- The population loop of `arrange_chars_into_grid` (secret_message.py
lines 72-73): sequential assignments, aborting at the first
`IndexError`. -/
def placeAll (g : List (List String)) :
    List CharacterEntry → Option (List (List String))
  | [] => some g
  | e :: rest =>
    match setCell g e.y e.x e.char with
    | none => none
    | some g' => placeAll g' rest

/-- Python `max` over a nonempty collection, given as head and tail. -/
def listMax (a : Int) (l : List Int) : Int := l.foldl max a

/-- The computation `max(x for x, _, _ in characters)` (secret_message.py
line 67); only applied to nonempty lists. -/
def maxX : List CharacterEntry → Int
  | [] => 0
  | e :: rest => listMax e.x (rest.map CharacterEntry.x)

/-- The computation `max(y for _, y, _ in characters)` (secret_message.py
line 68); only applied to nonempty lists. -/
def maxY : List CharacterEntry → Int
  | [] => 0
  | e :: rest => listMax e.y (rest.map CharacterEntry.y)

/-- Embedding of `arrange_chars_into_grid` (secret_message.py lines 56-75):
an empty entry list gives an empty grid; otherwise a
`(max_y + 1) × (max_x + 1)` grid of `' '` is allocated (Python `range` of a
non-positive number is empty, hence `Int.toNat`) and populated; `none`
models an escaping `IndexError`.  The `x_scale` and `y_scale` parameters
(defaults 6 and 13) are never read. -/
def arrange_chars_into_grid (characters : List CharacterEntry)
    (x_scale : Int) (y_scale : Int) : Option (List (List String)) :=
  match characters with
  | [] => some []
  | e :: rest =>
    placeAll
      (List.replicate (maxY (e :: rest) + 1).toNat
        (List.replicate (maxX (e :: rest) + 1).toNat " "))
      (e :: rest)

/-- Embedding of `print_grid` (secret_message.py lines 78-85): the printed
lines, one per row in reversed row order, each row's cells concatenated with
no separator. -/
def print_grid (grid : List (List String)) : List String :=
  grid.reverse.map String.join

/-- Embedding of `extract_secret_message_from_doc` (secret_message.py lines
88-106): the complete printed output of a run, `none` when an exception
escapes (only possible in `arrange_chars_into_grid`).  `if not html` is true
both for the `None` sentinel and for an empty body string. -/
def extract_secret_message_from_doc (r : NetResult) : Option (List String) :=
  match fetch_and_parse_doc r with
  | (none, out) => some out
  | (some doc, out) =>
    if doc.text = "" then some out
    else
      match parse_table_characters doc with
      | (msgs, []) => some (out ++ msgs ++ ["No characters found in the document."])
      | (msgs, characters) =>
        match arrange_chars_into_grid characters 6 13 with
        | none => none
        | some grid => some (out ++ msgs ++ print_grid grid)

/-- The glyph shown at row `r`, column `c` of a grid; out-of-range cells
read as the blank glyph. -/
def cellVal (g : List (List String)) (r c : Nat) : String :=
  (g.getD r []).getD c " "

/-- A grid is rectangular with `R` rows of `C` columns each. -/
def rect (g : List (List String)) (R : Nat) (C : Nat) : Prop :=
  g.length = R ∧ ∀ row ∈ g, row.length = C

/-- The character of the last entry of the list whose Python-indexed target
in an `R × C` grid is the cell `(r, c)`; `none` when no entry targets it. -/
def lastHit (R C : Nat) : List CharacterEntry → Nat → Nat → Option String
  | [], _, _ => none
  | e :: rest, r, c =>
    match lastHit R C rest r c with
    | some s => some s
    | none =>
      if pyIdx e.y R = some r ∧ pyIdx e.x C = some c then some e.char else none

/-- The character of the last entry of the list with coordinates exactly
`(x, y)`; `none` when there is none. -/
def lastMatch : List CharacterEntry → Int → Int → Option String
  | [], _, _ => none
  | e :: rest, x, y =>
    match lastMatch rest x y with
    | some s => some s
    | none => if e.x = x ∧ e.y = y then some e.char else none

/-- Row acceptance as the specification words it, for comparison with
`rowEntry`: a data row yields an entry exactly when it has at least 3 cells,
cells 0 and 2 parse as integers after trimming whitespace, and cell 1 is
non-empty after trimming; the entry is `(x, y, trimmed cell 1)`. -/
def specRowEntry (cells : List String) : Option CharacterEntry :=
  match pyInt (pyStrip (cells.getD 0 "")), pyInt (pyStrip (cells.getD 2 "")) with
  | some x, some y =>
    if 3 ≤ cells.length ∧ pyStrip (cells.getD 1 "") ≠ "" then
      some ⟨x, y, pyStrip (cells.getD 1 "")⟩
    else none
  | _, _ => none

/-! ### Helper lemmas -/

lemma pyIdx_lt {i : Int} {n m : Nat} (h : pyIdx i n = some m) : m < n := by
  unfold pyIdx at h
  split at h
  · split at h
    · injection h with h'
      omega
    · exact Option.noConfusion h
  · split at h
    · exact Option.noConfusion h
    · injection h with h'
      omega

lemma pyIdx_of_nonneg {i : Int} {n : Nat} (h0 : 0 ≤ i) (hn : i < (n : Int)) :
    pyIdx i n = some i.toNat := by
  unfold pyIdx
  rw [if_pos h0, if_pos hn]

lemma pyIdx_of_neg {i : Int} {n : Nat} (h0 : i < 0) (hn : 0 ≤ (n : Int) + i) :
    pyIdx i n = some ((n : Int) + i).toNat := by
  unfold pyIdx
  rw [if_neg (by omega), if_neg (by omega)]

lemma cellVal_eq (g : List (List String)) (r c : Nat) :
    cellVal g r c = ((g[r]?.getD [])[c]?).getD " " := by
  unfold cellVal
  rw [List.getD_eq_getElem?_getD, List.getD_eq_getElem?_getD]

lemma rect_row {g : List (List String)} {R C : Nat} (hg : rect g R C)
    {r : Nat} (hr : r < R) : (g[r]?.getD []).length = C := by
  obtain ⟨hlen, hrow⟩ := hg
  have hr' : r < g.length := by omega
  rw [List.getElem?_eq_getElem hr', Option.getD_some]
  exact hrow _ (List.getElem_mem hr')

lemma setCell_ok {g : List (List String)} {R C : Nat} (hg : rect g R C)
    {y x : Int} {r c : Nat} (hy : pyIdx y R = some r) (hx : pyIdx x C = some c)
    (ch : String) :
    ∃ g', setCell g y x ch = some g' ∧ rect g' R C ∧
      ∀ r' c', cellVal g' r' c' =
        if r' = r ∧ c' = c then ch else cellVal g r' c' := by
  have hrR : r < R := pyIdx_lt hy
  have hcC : c < C := pyIdx_lt hx
  have hrow : (g[r]?.getD []).length = C := rect_row hg hrR
  have hrg : r < g.length := hg.1 ▸ hrR
  refine ⟨g.set r ((g[r]?.getD []).set c ch), ?_, ?_, ?_⟩
  · simp only [setCell, hg.1, hy, List.getD_eq_getElem?_getD, hrow, hx]
  · constructor
    · rw [List.length_set, hg.1]
    · intro row hrowmem
      rcases List.mem_or_eq_of_mem_set hrowmem with h | h
      · exact hg.2 _ h
      · rw [h, List.length_set, hrow]
  · intro r' c'
    rw [cellVal_eq, cellVal_eq]
    by_cases hr' : r' = r
    · subst hr'
      rw [List.getElem?_set_self hrg, Option.getD_some]
      by_cases hc' : c' = c
      · subst hc'
        rw [if_pos ⟨rfl, rfl⟩, List.getElem?_set_self (by omega),
          Option.getD_some]
      · rw [if_neg (by tauto), List.getElem?_set_ne (Ne.symm hc')]
    · rw [if_neg (by tauto), List.getElem?_set_ne (fun h => hr' h.symm)]

lemma lastHit_cons (R C : Nat) (e : CharacterEntry) (rest : List CharacterEntry)
    (r c : Nat) :
    lastHit R C (e :: rest) r c =
      match lastHit R C rest r c with
      | some s => some s
      | none =>
        if pyIdx e.y R = some r ∧ pyIdx e.x C = some c then some e.char
        else none := rfl

lemma placeAll_ok (entries : List CharacterEntry) :
    ∀ (g : List (List String)) {R C : Nat}, rect g R C →
    (∀ e ∈ entries, (pyIdx e.y R).isSome ∧ (pyIdx e.x C).isSome) →
    ∃ g', placeAll g entries = some g' ∧ rect g' R C ∧
      ∀ r c, cellVal g' r c = (lastHit R C entries r c).getD (cellVal g r c) := by
  induction entries with
  | nil =>
    intro g R C hg _
    exact ⟨g, rfl, hg, fun r c => rfl⟩
  | cons e rest ih =>
    intro g R C hg hin
    obtain ⟨hy, hx⟩ := hin e (List.mem_cons_self e rest)
    obtain ⟨r₀, hy⟩ := Option.isSome_iff_exists.mp hy
    obtain ⟨c₀, hx⟩ := Option.isSome_iff_exists.mp hx
    obtain ⟨g₁, hset, hg₁, hcell₁⟩ := setCell_ok hg hy hx e.char
    obtain ⟨g', hplace, hg', hcell'⟩ :=
      ih g₁ hg₁ (fun e' he' => hin e' (List.mem_cons_of_mem e he'))
    refine ⟨g', ?_, hg', ?_⟩
    · unfold placeAll
      rw [hset]
      exact hplace
    · intro r c
      rw [hcell' r c, hcell₁ r c, lastHit_cons]
      cases hrest : lastHit R C rest r c with
      | some s => simp only [Option.getD_some]
      | none =>
        simp only [Option.getD_none]
        by_cases hrc : r = r₀ ∧ c = c₀
        · rw [if_pos hrc, hrc.1, hrc.2, if_pos ⟨hy, hx⟩, Option.getD_some]
        · rw [if_neg hrc]
          have hne : ¬(pyIdx e.y R = some r ∧ pyIdx e.x C = some c) := by
            rintro ⟨h1, h2⟩
            rw [hy, Option.some.injEq] at h1
            rw [hx, Option.some.injEq] at h2
            exact hrc ⟨h1.symm, h2.symm⟩
          rw [if_neg hne, Option.getD_none]

lemma le_listMax_self (a : Int) (l : List Int) : a ≤ listMax a l := by
  induction l generalizing a with
  | nil => exact le_refl a
  | cons b l ih =>
    have : listMax a (b :: l) = listMax (max a b) l := rfl
    rw [this]
    exact le_trans (le_max_left a b) (ih (max a b))

lemma le_listMax_of_mem {b : Int} {l : List Int} (hb : b ∈ l) (a : Int) :
    b ≤ listMax a l := by
  induction l generalizing a with
  | nil => exact absurd hb (List.not_mem_nil b)
  | cons c l ih =>
    have hrw : listMax a (c :: l) = listMax (max a c) l := rfl
    rw [hrw]
    rcases List.mem_cons.mp hb with h | h
    · subst h
      exact le_trans (le_max_right a b) (le_listMax_self _ l)
    · exact ih h (max a c)

lemma le_maxX {e : CharacterEntry} {l : List CharacterEntry} (he : e ∈ l) :
    e.x ≤ maxX l := by
  rcases l with _ | ⟨e₀, rest⟩
  · exact absurd he (List.not_mem_nil e)
  · show e.x ≤ listMax e₀.x (rest.map CharacterEntry.x)
    rcases List.mem_cons.mp he with h | h
    · exact h ▸ le_listMax_self _ _
    · exact le_listMax_of_mem (List.mem_map_of_mem CharacterEntry.x h) _

lemma le_maxY {e : CharacterEntry} {l : List CharacterEntry} (he : e ∈ l) :
    e.y ≤ maxY l := by
  rcases l with _ | ⟨e₀, rest⟩
  · exact absurd he (List.not_mem_nil e)
  · show e.y ≤ listMax e₀.y (rest.map CharacterEntry.y)
    rcases List.mem_cons.mp he with h | h
    · exact h ▸ le_listMax_self _ _
    · exact le_listMax_of_mem (List.mem_map_of_mem CharacterEntry.y h) _

lemma rect_replicate (R C : Nat) :
    rect (List.replicate R (List.replicate C " ")) R C :=
  ⟨List.length_replicate R _,
    fun row hrow => (List.eq_of_mem_replicate hrow) ▸ List.length_replicate C " "⟩

lemma cellVal_replicate (R C r c : Nat) :
    cellVal (List.replicate R (List.replicate C " ")) r c = " " := by
  rw [cellVal_eq, List.getElem?_replicate]
  by_cases hr : r < R
  · rw [if_pos hr, Option.getD_some, List.getElem?_replicate]
    by_cases hc : c < C
    · rw [if_pos hc, Option.getD_some]
    · rw [if_neg hc, Option.getD_none]
  · rw [if_neg hr]
    rfl

/-- Main lemma about `arrange_chars_into_grid` on a nonempty entry list all
of whose entries index within the allocated grid: the build succeeds, the
grid is rectangular of the allocated dimensions, and each cell holds the
character of the last entry that Python-indexes to it, blank if none
does. -/
lemma arrange_ok (l : List CharacterEntry) (xs ys : Int) (hne : l ≠ [])
    (hin : ∀ e ∈ l, (pyIdx e.y (maxY l + 1).toNat).isSome ∧
      (pyIdx e.x (maxX l + 1).toNat).isSome) :
    ∃ g, arrange_chars_into_grid l xs ys = some g ∧
      rect g (maxY l + 1).toNat (maxX l + 1).toNat ∧
      ∀ r c, cellVal g r c =
        (lastHit (maxY l + 1).toNat (maxX l + 1).toNat l r c).getD " " := by
  rcases l with _ | ⟨e, rest⟩
  · exact absurd rfl hne
  · obtain ⟨g, hplace, hg, hcell⟩ :=
      placeAll_ok (e :: rest) _ (rect_replicate _ _) hin
    refine ⟨g, hplace, hg, fun r c => ?_⟩
    rw [hcell r c, cellVal_replicate]

lemma hin_of_nonneg {l : List CharacterEntry}
    (hnn : ∀ e ∈ l, 0 ≤ e.x ∧ 0 ≤ e.y) :
    ∀ e ∈ l, (pyIdx e.y (maxY l + 1).toNat).isSome ∧
      (pyIdx e.x (maxX l + 1).toNat).isSome := by
  intro e he
  obtain ⟨hx0, hy0⟩ := hnn e he
  have hxm := le_maxX he
  have hym := le_maxY he
  constructor
  · rw [pyIdx_of_nonneg hy0 (by omega)]
    rfl
  · rw [pyIdx_of_nonneg hx0 (by omega)]
    rfl

lemma lastMatch_cons (e : CharacterEntry) (rest : List CharacterEntry)
    (x y : Int) :
    lastMatch (e :: rest) x y =
      match lastMatch rest x y with
      | some s => some s
      | none => if e.x = x ∧ e.y = y then some e.char else none := rfl

lemma lastHit_eq_lastMatch {l : List CharacterEntry} {R C : Nat}
    (hb : ∀ e ∈ l, 0 ≤ e.x ∧ e.x < (C : Int) ∧ 0 ≤ e.y ∧ e.y < (R : Int))
    {x y : Int} (hx : 0 ≤ x) (hy : 0 ≤ y) :
    lastHit R C l y.toNat x.toNat = lastMatch l x y := by
  induction l with
  | nil => rfl
  | cons e rest ih =>
    rw [lastHit_cons, lastMatch_cons,
      ih (fun e' he' => hb e' (List.mem_cons_of_mem e he'))]
    obtain ⟨hex0, hexC, hey0, heyR⟩ := hb e (List.mem_cons_self e rest)
    cases lastMatch rest x y with
    | some s => rfl
    | none =>
      dsimp only
      have hiff : (pyIdx e.y R = some y.toNat ∧ pyIdx e.x C = some x.toNat) ↔
          (e.x = x ∧ e.y = y) := by
        rw [pyIdx_of_nonneg hey0 heyR, pyIdx_of_nonneg hex0 hexC]
        constructor
        · rintro ⟨h1, h2⟩
          rw [Option.some.injEq] at h1 h2
          exact ⟨by omega, by omega⟩
        · rintro ⟨h1, h2⟩
          rw [h1, h2]
          exact ⟨rfl, rfl⟩
      by_cases hc : e.x = x ∧ e.y = y
      · rw [if_pos (hiff.mpr hc), if_pos hc]
      · rw [if_neg (fun h => hc (hiff.mp h)), if_neg hc]

lemma lastHit_append (R C : Nat) (l₁ l₂ : List CharacterEntry) (r c : Nat) :
    lastHit R C (l₁ ++ l₂) r c =
      match lastHit R C l₂ r c with
      | some s => some s
      | none => lastHit R C l₁ r c := by
  induction l₁ with
  | nil =>
    rw [List.nil_append]
    cases lastHit R C l₂ r c with
    | some s => rfl
    | none => rfl
  | cons e rest ih =>
    rw [List.cons_append, lastHit_cons, ih]
    cases lastHit R C l₂ r c with
    | some s => rfl
    | none => rw [lastHit_cons]

lemma lastHit_singleton {R C : Nat} {e : CharacterEntry} {r c : Nat}
    (hy : pyIdx e.y R = some r) (hx : pyIdx e.x C = some c) :
    lastHit R C [e] r c = some e.char := by
  rw [lastHit_cons, show lastHit R C [] r c = none from rfl]
  dsimp only
  rw [if_pos ⟨hy, hx⟩]

lemma rowEntry_eq_spec (cells : List String) :
    rowEntry cells = specRowEntry cells := by
  unfold rowEntry specRowEntry
  by_cases hlen : 3 ≤ cells.length
  · rw [if_pos hlen]
    cases pyInt (pyStrip (cells.getD 0 "")) with
    | none =>
      cases pyInt (pyStrip (cells.getD 2 "")) with
      | none => rfl
      | some y => rfl
    | some x =>
      cases pyInt (pyStrip (cells.getD 2 "")) with
      | none => rfl
      | some y =>
        dsimp only
        by_cases hc : pyStrip (cells.getD 1 "") ≠ ""
        · rw [if_pos hc, if_pos ⟨hlen, hc⟩]
        · rw [if_neg hc, if_neg (by tauto)]
  · rw [if_neg hlen]
    cases pyInt (pyStrip (cells.getD 0 "")) with
    | none =>
      cases pyInt (pyStrip (cells.getD 2 "")) with
      | none => rfl
      | some y => rfl
    | some x =>
      cases pyInt (pyStrip (cells.getD 2 "")) with
      | none => rfl
      | some y =>
        dsimp only
        rw [if_neg (by tauto)]

/-! ### Claims -/

/-- C1 counterexample: on a successfully fetched document with no table
element, the program prints the "No table found" line and then also the
"No characters found" line, so the printed output is not exactly the single
"No table found" line. -/
theorem C1_counterexample :
    extract_secret_message_from_doc (NetResult.success ⟨"x", none⟩) =
      some ["No table found in the document.",
        "No characters found in the document."] ∧
    extract_secret_message_from_doc (NetResult.success ⟨"x", none⟩) ≠
      some ["No table found in the document."] :=
  ⟨rfl, by decide⟩

/-- C1 (amended): for every successfully fetched document with non-empty
body text and no table element, the printed output is exactly the
"No table found" line followed by the "No characters found" line — no grid
lines and nothing else. -/
theorem C1_no_table_two_lines (doc : HtmlDoc) (htext : doc.text ≠ "")
    (htable : doc.table = none) :
    extract_secret_message_from_doc (NetResult.success doc) =
      some ["No table found in the document.",
        "No characters found in the document."] := by
  unfold extract_secret_message_from_doc fetch_and_parse_doc
  dsimp only
  rw [if_neg htext]
  unfold parse_table_characters
  rw [htable]
  rfl

/-- Witness for the amended C1 at a concrete document. -/
theorem C1_no_table_two_lines_witness :
    extract_secret_message_from_doc (NetResult.success ⟨"y", none⟩) =
      some ["No table found in the document.",
        "No characters found in the document."] :=
  C1_no_table_two_lines ⟨"y", none⟩ (by decide) rfl

/-- C2 counterexample: a fetchable, parsable document whose table rows give
the entries `(0, 3, "b")` and `(0, -5, "a")` makes `grid[-5]` raise an
uncaught `IndexError` (the index is below `-(max_y + 1) = -4`), so the
pipeline does not terminate with a printed message or grid. -/
theorem C2_counterexample :
    extract_secret_message_from_doc (NetResult.success
      ⟨"x", some [["x", "char", "y"], ["0", "b", "3"], ["0", "a", "-5"]]⟩) =
      none := rfl

/-- C2 (amended): after a successful fetch the pipeline terminates normally
with a printed message or grid whenever every entry the parser produces has
non-negative coordinates; a parsed entry with a coordinate below the
negation of the corresponding grid dimension instead raises an uncaught
`IndexError`. -/
theorem C2_terminates_on_nonneg (doc : HtmlDoc)
    (hnn : ∀ e ∈ (parse_table_characters doc).2, 0 ≤ e.x ∧ 0 ≤ e.y) :
    (extract_secret_message_from_doc (NetResult.success doc)).isSome = true := by
  unfold extract_secret_message_from_doc fetch_and_parse_doc
  dsimp only
  by_cases htext : doc.text = ""
  · rw [if_pos htext]
    rfl
  · rw [if_neg htext]
    cases hparse : parse_table_characters doc with
    | mk msgs characters =>
      cases characters with
      | nil => rfl
      | cons e rest =>
        have hnn' : ∀ e' ∈ e :: rest, 0 ≤ e'.x ∧ 0 ≤ e'.y := by
          intro e' he'
          apply hnn
          rw [hparse]
          exact he'
        obtain ⟨g, hgeq, -, -⟩ := arrange_ok (e :: rest) 6 13
          (List.cons_ne_nil e rest) (hin_of_nonneg hnn')
        dsimp only
        rw [hgeq]
        rfl

/-- Witness for the amended C2 at a concrete document with one valid row. -/
theorem C2_terminates_on_nonneg_witness :
    (extract_secret_message_from_doc (NetResult.success
      ⟨"z", some [["x", "char", "y"], ["1", "A", "0"]]⟩)).isSome = true :=
  C2_terminates_on_nonneg _ (by decide)

/-- C3 counterexample: the builder succeeds on the entry list
`[(-1, 0, "a"), (2, 0, "b")]` (the `-1` wraps to the last column), yet the
first entry's coordinates do not satisfy `0 ≤ x`, refuting the claimed
in-bounds invariant for every entry list. -/
theorem C3_counterexample :
    arrange_chars_into_grid [⟨-1, 0, "a"⟩, ⟨2, 0, "b"⟩] 6 13 =
      some [[" ", " ", "b"]] ∧
    ¬ (∀ e ∈ ([⟨-1, 0, "a"⟩, ⟨2, 0, "b"⟩] : List CharacterEntry),
        0 ≤ e.x ∧ e.x ≤ maxX [⟨-1, 0, "a"⟩, ⟨2, 0, "b"⟩] ∧
        0 ≤ e.y ∧ e.y ≤ maxY [⟨-1, 0, "a"⟩, ⟨2, 0, "b"⟩]) := by
  refine ⟨rfl, fun h => ?_⟩
  exact absurd (h ⟨-1, 0, "a"⟩ (by decide)).1 (by decide)

/-- C3 (amended): the upper bounds `x ≤ max_x` and `y ≤ max_y` hold for
every entry because the maxima are computed from the same entries; the lower
bounds `0 ≤ x` and `0 ≤ y` — and hence containment in the constructed grid's
bounds — hold provided every entry's coordinates are non-negative. -/
theorem C3_bounds_nonneg (entries : List CharacterEntry) (e : CharacterEntry)
    (he : e ∈ entries) (hnn : ∀ e' ∈ entries, 0 ≤ e'.x ∧ 0 ≤ e'.y) :
    0 ≤ e.x ∧ e.x ≤ maxX entries ∧ 0 ≤ e.y ∧ e.y ≤ maxY entries :=
  ⟨(hnn e he).1, le_maxX he, (hnn e he).2, le_maxY he⟩

/-- Witness for the amended C3 at a concrete entry of a concrete list. -/
theorem C3_bounds_nonneg_witness :
    0 ≤ (⟨2, 0, "r"⟩ : CharacterEntry).x ∧
    (⟨2, 0, "r"⟩ : CharacterEntry).x ≤ maxX [⟨0, 1, "q"⟩, ⟨2, 0, "r"⟩] ∧
    0 ≤ (⟨2, 0, "r"⟩ : CharacterEntry).y ∧
    (⟨2, 0, "r"⟩ : CharacterEntry).y ≤ maxY [⟨0, 1, "q"⟩, ⟨2, 0, "r"⟩] :=
  C3_bounds_nonneg [⟨0, 1, "q"⟩, ⟨2, 0, "r"⟩] ⟨2, 0, "r"⟩ (by decide) (by decide)

/-- C4 counterexample: on the non-empty list `[(0, -2, "a")]` the builder
produces no grid at all — `range(max_y + 1)` is empty and `grid[-2]` raises
`IndexError` — so it does not return a grid with `max_y + 1` rows. -/
theorem C4_counterexample :
    ([⟨0, -2, "a"⟩] : List CharacterEntry) ≠ [] ∧
    arrange_chars_into_grid [⟨0, -2, "a"⟩] 6 13 = none :=
  ⟨by decide, rfl⟩

/-- C4 (amended): for the empty list the builder returns an empty grid with
zero rows; for every non-empty list whose entries all have non-negative
coordinates it produces a grid of exactly `max_y + 1` rows, each of exactly
`max_x + 1` columns. -/
theorem C4_dimensions (entries : List CharacterEntry) (xs ys : Int) :
    (entries = [] → arrange_chars_into_grid entries xs ys = some []) ∧
    (entries ≠ [] → (∀ e ∈ entries, 0 ≤ e.x ∧ 0 ≤ e.y) →
      ∃ g, arrange_chars_into_grid entries xs ys = some g ∧
        (g.length : Int) = maxY entries + 1 ∧
        ∀ row ∈ g, (row.length : Int) = maxX entries + 1) := by
  constructor
  · intro h
    subst h
    rfl
  · intro hne hnn
    obtain ⟨g, hgeq, ⟨hlen, hrows⟩, -⟩ :=
      arrange_ok entries xs ys hne (hin_of_nonneg hnn)
    obtain ⟨e₀, he₀⟩ := List.exists_mem_of_ne_nil entries hne
    have h0x : 0 ≤ maxX entries := le_trans (hnn e₀ he₀).1 (le_maxX he₀)
    have h0y : 0 ≤ maxY entries := le_trans (hnn e₀ he₀).2 (le_maxY he₀)
    refine ⟨g, hgeq, by rw [hlen]; omega, fun row hrow => ?_⟩
    rw [hrows row hrow]
    omega

/-- Witness for the amended C4 at a concrete singleton list. -/
theorem C4_dimensions_witness :
    ∃ g, arrange_chars_into_grid [⟨1, 2, "A"⟩] 6 13 = some g ∧
      (g.length : Int) = maxY [⟨1, 2, "A"⟩] + 1 ∧
      ∀ row ∈ g, (row.length : Int) = maxX [⟨1, 2, "A"⟩] + 1 :=
  (C4_dimensions [⟨1, 2, "A"⟩] 6 13).2 (by decide) (by decide)

/-- C5 counterexample: in `[(2, 0, "c"), (-1, 0, "d")]` no later entry
shares the coordinates `(2, 0)`, yet the final cell at row `0`, column `2`
is `"d"` and not `"c"`: the later entry's `-1` wraps onto the same cell. -/
theorem C5_counterexample :
    ¬ (∀ g, arrange_chars_into_grid [⟨2, 0, "c"⟩, ⟨-1, 0, "d"⟩] 6 13 = some g →
        cellVal g 0 2 = "c") := by
  intro h
  exact absurd (h [[" ", " ", "d"]] rfl) (by decide)

/-- C5 (amended): when every entry's coordinates are non-negative, the
constructed grid's cell at row `y`, column `x` holds the character of the
last entry in list order with coordinates `(x, y)` (last-write-wins, no
collision error), and the blank glyph `" "` when no entry names it. -/
theorem C5_last_write_wins (entries : List CharacterEntry) (xs ys : Int)
    (hnn : ∀ e ∈ entries, 0 ≤ e.x ∧ 0 ≤ e.y) (g : List (List String))
    (hg : arrange_chars_into_grid entries xs ys = some g)
    (x y : Int) (hx : 0 ≤ x) (hy : 0 ≤ y) :
    cellVal g y.toNat x.toNat = (lastMatch entries x y).getD " " := by
  rcases entries with _ | ⟨e, rest⟩
  · injection hg with hg'
    subst hg'
    rfl
  · obtain ⟨g', hgeq, -, hcell⟩ := arrange_ok (e :: rest) xs ys
      (List.cons_ne_nil e rest) (hin_of_nonneg hnn)
    rw [hg] at hgeq
    injection hgeq with hgeq'
    subst hgeq'
    rw [hcell y.toNat x.toNat]
    congr 1
    apply lastHit_eq_lastMatch ?_ hx hy
    intro e' he'
    obtain ⟨h1, h2⟩ := hnn e' he'
    have h3 := le_maxX he'
    have h4 := le_maxY he'
    exact ⟨h1, by omega, h2, by omega⟩

/-- Witness for the amended C5: the spec's scenario-A grid, read at row 1,
column 0. -/
theorem C5_last_write_wins_witness :
    cellVal [["C", " "], ["A", "B"]] (1 : Int).toNat (0 : Int).toNat =
      (lastMatch [⟨0, 1, "A"⟩, ⟨1, 1, "B"⟩, ⟨0, 0, "C"⟩] 0 1).getD " " :=
  C5_last_write_wins [⟨0, 1, "A"⟩, ⟨1, 1, "B"⟩, ⟨0, 0, "C"⟩] 6 13 (by decide)
    [["C", " "], ["A", "B"]] rfl 0 1 (by decide) (by decide)

/-- C6: the renderer emits one line per grid row in reversed row order —
line `i` is the separator-free concatenation of the cells of row
`length - 1 - i`, so the first line is the highest-index row and the last
line is row 0 — and an empty grid produces no lines. -/
theorem C6_render_reversed (grid : List (List String)) :
    (print_grid grid).length = grid.length ∧
    (∀ i, i < grid.length →
      (print_grid grid)[i]? =
        some (String.join (grid.getD (grid.length - 1 - i) []))) ∧
    (grid = [] → print_grid grid = []) := by
  refine ⟨by simp [print_grid], fun i hi => ?_, fun h => by rw [h]; rfl⟩
  have hlt : grid.length - 1 - i < grid.length := by omega
  unfold print_grid
  rw [List.getElem?_map, List.getElem?_reverse hi, List.getElem?_eq_getElem hlt,
    Option.map_some', List.getD_eq_getElem?_getD, List.getElem?_eq_getElem hlt,
    Option.getD_some]

/-- Witness for C6 at the spec's scenario-A grid and at the empty grid. -/
theorem C6_render_reversed_witness :
    (print_grid [["C", " "], ["A", "B"]])[0]? =
      some (String.join ([["C", " "], ["A", "B"]].getD 1 [])) ∧
    print_grid [] = [] :=
  ⟨(C6_render_reversed [["C", " "], ["A", "B"]]).2.1 0 (by decide),
   (C6_render_reversed []).2.2 rfl⟩

/-- C7: on a document containing a table, the parser prints nothing, skips
the first row, and turns each remaining row into an entry exactly under the
spec's conditions — at least 3 cells, cells 0 and 2 integers after trimming,
cell 1 non-blank after trimming — silently excluding all other rows and
keeping the surviving entries in row encounter order. -/
theorem C7_row_laws (doc : HtmlDoc) (rows : List (List String))
    (htable : doc.table = some rows) :
    parse_table_characters doc =
      ([], (rows.drop 1).filterMap specRowEntry) := by
  unfold parse_table_characters
  rw [htable]
  have hfun : rowEntry = specRowEntry := funext rowEntry_eq_spec
  rw [hfun]

/-- Witness for C7 at a concrete table: a good row, a non-numeric `x`, a
blank character cell, and a 2-cell row. -/
theorem C7_row_laws_witness :
    parse_table_characters
      ⟨"w", some [["x", "char", "y"], ["0", "A", "1"], ["z", "B", "2"],
        ["3", " ", "4"], ["5", "C"]]⟩ =
      ([], ([["0", "A", "1"], ["z", "B", "2"], ["3", " ", "4"],
        ["5", "C"]]).filterMap specRowEntry) :=
  C7_row_laws
    ⟨"w", some [["x", "char", "y"], ["0", "A", "1"], ["z", "B", "2"],
      ["3", " ", "4"], ["5", "C"]]⟩
    [["x", "char", "y"], ["0", "A", "1"], ["z", "B", "2"],
      ["3", " ", "4"], ["5", "C"]] rfl

/-- C8: when the HTTP request fails, the fetcher prints a single error line
embedding the failure description and returns the `None` sentinel instead of
raising, and the orchestrator stops: the run's entire printed output is
exactly that error line, with no parsing, grid building, or rendering
output. -/
theorem C8_fetch_failure_stops (err : String) :
    fetch_and_parse_doc (NetResult.failure err) =
      (none, ["Error fetching the document: " ++ err]) ∧
    extract_secret_message_from_doc (NetResult.failure err) =
      some ["Error fetching the document: " ++ err] :=
  ⟨rfl, rfl⟩

/-- C9: `arrange_chars_into_grid` never reads its `x_scale` and `y_scale`
parameters, so its result depends only on the entry list: any two parameter
choices give the same grid. -/
theorem C9_scale_params_unused (characters : List CharacterEntry)
    (a b c d : Int) :
    arrange_chars_into_grid characters a b =
      arrange_chars_into_grid characters c d := rfl

/-- C10 counterexample: the list `[(-1, 0, "c"), (5, 2, "d"), (0, -100, "z")]`
contains the entry `(-1, 0, "c")` with `0 ≤ 0 ≤ max_y = 2` and
`max_x = 5 ≥ 0` (maxima also of the other entries alone), yet the build
raises `IndexError` on the third entry instead of succeeding. -/
theorem C10_counterexample :
    arrange_chars_into_grid [⟨-1, 0, "c"⟩, ⟨5, 2, "d"⟩, ⟨0, -100, "z"⟩] 6 13 =
      none := rfl

/-- C10 (amended): appending the entry `(-1, y, c)`, `0 ≤ y`, to a non-empty
list of entries with non-negative coordinates, the build succeeds and the
final cell at row `y`, column `max_x` (the last column) holds `c`: a `-1`
x-coordinate wraps to index from the right rather than being rejected or
extending the grid. -/
theorem C10_neg_one_wraps (init : List CharacterEntry) (y : Int) (c : String)
    (xs ys : Int) (hinit : init ≠ [])
    (hnn : ∀ e ∈ init, 0 ≤ e.x ∧ 0 ≤ e.y) (hy : 0 ≤ y) :
    ∃ g, arrange_chars_into_grid (init ++ [⟨-1, y, c⟩]) xs ys = some g ∧
      cellVal g y.toNat (maxX (init ++ [⟨-1, y, c⟩])).toNat = c := by
  obtain ⟨e₀, he₀⟩ := List.exists_mem_of_ne_nil init hinit
  have he₀l : e₀ ∈ init ++ [⟨-1, y, c⟩] := List.mem_append_left _ he₀
  have hmem : (⟨-1, y, c⟩ : CharacterEntry) ∈ init ++ [⟨-1, y, c⟩] :=
    List.mem_append_right _ (List.mem_cons_self _ _)
  have hmx : 0 ≤ maxX (init ++ [⟨-1, y, c⟩]) :=
    le_trans (hnn e₀ he₀).1 (le_maxX he₀l)
  have hmy : y ≤ maxY (init ++ [⟨-1, y, c⟩]) := le_maxY hmem
  have hne : init ++ [⟨-1, y, c⟩] ≠ [] := by
    intro h
    have := congrArg List.length h
    rw [List.length_append] at this
    simp at this
  have hin : ∀ e ∈ init ++ [⟨-1, y, c⟩],
      (pyIdx e.y (maxY (init ++ [⟨-1, y, c⟩]) + 1).toNat).isSome = true ∧
      (pyIdx e.x (maxX (init ++ [⟨-1, y, c⟩]) + 1).toNat).isSome = true := by
    intro e he
    have hex := le_maxX he
    have hey := le_maxY he
    rcases List.mem_append.mp he with h | h
    · obtain ⟨h1, h2⟩ := hnn e h
      constructor
      · rw [pyIdx_of_nonneg h2 (by omega)]
        rfl
      · rw [pyIdx_of_nonneg h1 (by omega)]
        rfl
    · have he' : e = ⟨-1, y, c⟩ := by simpa using h
      subst he'
      constructor
      · rw [pyIdx_of_nonneg hy (by omega)]
        rfl
      · rw [show ((⟨-1, y, c⟩ : CharacterEntry).x) = (-1 : Int) from rfl]
        have h1 : (-1 : Int) < 0 := by omega
        have h2 : 0 ≤ (((maxX (init ++ [⟨-1, y, c⟩]) + 1).toNat : Nat) : Int) + -1 := by
          omega
        rw [pyIdx_of_neg h1 h2]
        rfl
  obtain ⟨g, hgeq, -, hcell⟩ := arrange_ok _ xs ys hne hin
  refine ⟨g, hgeq, ?_⟩
  have hidy : pyIdx ((⟨-1, y, c⟩ : CharacterEntry).y)
      (maxY (init ++ [⟨-1, y, c⟩]) + 1).toNat = some y.toNat := by
    rw [show ((⟨-1, y, c⟩ : CharacterEntry).y) = y from rfl]
    exact pyIdx_of_nonneg hy (by omega)
  have hidx : pyIdx ((⟨-1, y, c⟩ : CharacterEntry).x)
      (maxX (init ++ [⟨-1, y, c⟩]) + 1).toNat =
      some (maxX (init ++ [⟨-1, y, c⟩])).toNat := by
    rw [show ((⟨-1, y, c⟩ : CharacterEntry).x) = (-1 : Int) from rfl]
    have h1 : (-1 : Int) < 0 := by omega
    have h2 : 0 ≤ (((maxX (init ++ [⟨-1, y, c⟩]) + 1).toNat : Nat) : Int) + -1 := by
      omega
    rw [pyIdx_of_neg h1 h2]
    congr 1
    omega
  rw [hcell, lastHit_append, lastHit_singleton hidy hidx]
  rfl

/-- Witness for the amended C10: `(-1, 0, "w")` appended after two
non-negative entries lands in the last column of row 0. -/
theorem C10_neg_one_wraps_witness :
    ∃ g, arrange_chars_into_grid
        [⟨0, 0, "m"⟩, ⟨3, 1, "n"⟩, ⟨-1, 0, "w"⟩] 6 13 = some g ∧
      cellVal g (0 : Int).toNat
        (maxX [⟨0, 0, "m"⟩, ⟨3, 1, "n"⟩, ⟨-1, 0, "w"⟩]).toNat = "w" :=
  C10_neg_one_wraps [⟨0, 0, "m"⟩, ⟨3, 1, "n"⟩] 0 "w" 6 13 (by decide)
    (by decide) (by decide)

end SecretMessage

